import Mathlib

/-!
Verification of the magic-link passwordless authentication service
(`src/index.js`).  The mutable store (Prisma `user` table) is modelled as a
list of user records; each HTTP handler becomes a pure function from the
store, the current time (milliseconds), and the handler inputs to the new
store and the HTTP response.  Randomness (`crypto.randomBytes`) and record-id
generation are passed in as explicit parameters; the outbound mail transport
is modelled by a boolean `emailOk` saying whether `transporter.sendMail`
succeeds.
-/

namespace MagicLink

/-- A row of the Prisma `user` table: id, email, optional name, `verified`
flag, creation time, and the embedded magic-link triple
(`magicLinkToken`, `magicLinkExpires`, `magicLinkUsed`). -/
structure User where
  id : Nat
  email : String
  name : Option String
  verified : Bool
  createdAt : Nat
  magicLinkToken : Option String
  magicLinkExpires : Option Nat
  magicLinkUsed : Bool
deriving Repr, DecidableEq

/-- The user table. -/
abbrev DB := List User

/-- Milliseconds of the magic-link validity window: `15 * 60 * 1000`. -/
def fifteenMinutes : Nat := 15 * 60 * 1000

/-- Milliseconds of the JWT/cookie validity window: `7 * 24 * 60 * 60 * 1000`. -/
def sevenDays : Nat := 7 * 24 * 60 * 60 * 1000

/-- The error responses the handlers can produce, one per distinct
status/message pair in `src/index.js`. -/
inductive ApiError where
  /-- 400 "Valid email is required" / "Verification token is required". -/
  | invalidInput
  /-- 409 "Account already exists and verified". -/
  | alreadyExists
  /-- 404 "No (verified) account found with this email". -/
  | notFound
  /-- 400 "Account is already verified". -/
  | alreadyVerified
  /-- 400 "Invalid or expired verification link". -/
  | invalidOrExpiredToken
  /-- 500, produced by the catch-all handler (e.g. email dispatch failure). -/
  | serverError
  /-- 401 "Authentication required" / "Invalid token" / "User not found". -/
  | unauthenticated
deriving Repr, DecidableEq

/-- A handler response: success payload or an error. -/
inductive Result (α : Type) where
  | ok (value : α)
  | err (e : ApiError)
deriving Repr, DecidableEq

/-- Whether a response is a success. -/
def Result.isOk : Result α → Bool
  | .ok _ => true
  | .err _ => false

/-- The email validity check shared by signup, login and resend:
`!email || !email.includes("@")` rejects; so an email passes iff it is
present, non-empty, and contains at least one `@`.  The character scan of
`includes` is taken on the character list of the string. -/
def validEmail : Option String → Bool
  | none => false
  | some e => !e.data.isEmpty && e.data.contains '@'

/-- Lookup `prisma.user.findUnique({ where: { email } })`. -/
def findUniqueByEmail (db : DB) (email : String) : Option User :=
  db.find? (fun u => u.email == email)

/-- Lookup `prisma.user.findUnique({ where: { id } })`. -/
def findUniqueById (db : DB) (uid : Nat) : Option User :=
  db.find? (fun u => u.id == uid)

/-- Update `prisma.user.update({ where: { email }, data: f })`: rewrite the rows
whose email matches. -/
def updateByEmail (db : DB) (email : String) (f : User → User) : DB :=
  db.map (fun u => if u.email == email then f u else u)

/-- Update `prisma.user.update({ where: { id }, data: f })`: rewrite the rows whose
id matches. -/
def updateById (db : DB) (uid : Nat) (f : User → User) : DB :=
  db.map (fun u => if u.id == uid then f u else u)

/-- JavaScript `a || b` on an optional string (`name: name || user.name`):
`undefined`/`null`/`""` fall through to `b`. -/
def jsOr (a b : Option String) : Option String :=
  match a with
  | none => b
  | some s => if s.isEmpty then b else some s

/-- Outcome of an issuance handler (signup / login / resend): the new store,
the HTTP response carrying `(email, name)` on success, and whether
`sendMagicLinkEmail` was invoked. -/
structure IssueOutcome where
  db : DB
  response : Result (String × Option String)
  dispatched : Bool
deriving Repr, DecidableEq

/-- Handler `POST /api/auth/signup`.  `freshToken` stands for
`crypto.randomBytes(32).toString("hex")`, `freshId` for the id the store
would assign on `create`, and `emailOk` for whether `sendMagicLinkEmail`
succeeds. -/
def signup (db : DB) (now : Nat) (freshToken : String) (freshId : Nat)
    (emailOk : Bool) (email : Option String) (name : Option String) :
    IssueOutcome :=
  match email with
  | none => ⟨db, .err .invalidInput, false⟩
  | some e =>
    if !validEmail (some e) then ⟨db, .err .invalidInput, false⟩
    else
      match findUniqueByEmail db e with
      | some u =>
        if u.verified then ⟨db, .err .alreadyExists, false⟩
        else
          let db' := updateByEmail db e (fun v =>
            { v with
              name := jsOr name v.name
              magicLinkToken := some freshToken
              magicLinkExpires := some (now + fifteenMinutes)
              magicLinkUsed := false })
          if emailOk then ⟨db', .ok (e, jsOr name u.name), true⟩
          else ⟨db', .err .serverError, true⟩
      | none =>
        let newUser : User :=
          { id := freshId
            email := e
            name := name
            verified := false
            createdAt := now
            magicLinkToken := some freshToken
            magicLinkExpires := some (now + fifteenMinutes)
            magicLinkUsed := false }
        let db' := db ++ [newUser]
        if emailOk then ⟨db', .ok (e, name), true⟩
        else ⟨db', .err .serverError, true⟩

/-- Handler `POST /api/auth/login`. -/
def login (db : DB) (now : Nat) (freshToken : String) (emailOk : Bool)
    (email : Option String) : IssueOutcome :=
  match email with
  | none => ⟨db, .err .invalidInput, false⟩
  | some e =>
    if !validEmail (some e) then ⟨db, .err .invalidInput, false⟩
    else
      match findUniqueByEmail db e with
      | none => ⟨db, .err .notFound, false⟩
      | some u =>
        if !u.verified then ⟨db, .err .notFound, false⟩
        else
          let db' := updateByEmail db e (fun v =>
            { v with
              magicLinkToken := some freshToken
              magicLinkExpires := some (now + fifteenMinutes)
              magicLinkUsed := false })
          if emailOk then ⟨db', .ok (u.email, u.name), true⟩
          else ⟨db', .err .serverError, true⟩

/-- Handler `POST /api/auth/resend-verification`. -/
def resend (db : DB) (now : Nat) (freshToken : String) (emailOk : Bool)
    (email : Option String) : IssueOutcome :=
  match email with
  | none => ⟨db, .err .invalidInput, false⟩
  | some e =>
    if !validEmail (some e) then ⟨db, .err .invalidInput, false⟩
    else
      match findUniqueByEmail db e with
      | none => ⟨db, .err .notFound, false⟩
      | some u =>
        if u.verified then ⟨db, .err .alreadyVerified, false⟩
        else
          let db' := updateByEmail db e (fun v =>
            { v with
              magicLinkToken := some freshToken
              magicLinkExpires := some (now + fifteenMinutes)
              magicLinkUsed := false })
          if emailOk then ⟨db', .ok (u.email, u.name), true⟩
          else ⟨db', .err .serverError, true⟩

/-- The JWT minted by `jwt.sign({userId, email, verified: true}, JWT_SECRET,
{expiresIn: "7d"})`, modelled as its payload plus the signing secret and the
absolute expiry instant. -/
structure Jwt where
  userId : Nat
  email : String
  verified : Bool
  secret : String
  expiresAt : Nat
deriving Repr, DecidableEq

/-- Minting of the 7-day session credential after a successful verification
(`jwt.sign` in the verify handler). -/
def mintJwt (secret : String) (now : Nat) (u : User) : Jwt :=
  { userId := u.id
    email := u.email
    verified := true
    secret := secret
    expiresAt := now + sevenDays }

/-- The `where` clause of `findFirst` in the verify handler:
`magicLinkToken: token, magicLinkUsed: false, magicLinkExpires: {gt: now}`
(a `null` expiry never satisfies `gt`). -/
def isActiveToken (t : String) (now : Nat) (u : User) : Bool :=
  u.magicLinkToken == some t && !u.magicLinkUsed &&
    (match u.magicLinkExpires with
     | some ex => decide (now < ex)
     | none => false)

/-- Query `prisma.user.findFirst({ where: ... })` of the verify handler. -/
def verifyFind (db : DB) (now : Nat) (t : String) : Option User :=
  db.find? (isActiveToken t now)

/-- The `data` of the consuming update in the verify handler:
`verified: true, magicLinkToken: null, magicLinkExpires: null,
magicLinkUsed: true`. -/
def consume (u : User) : User :=
  { u with
    verified := true
    magicLinkToken := none
    magicLinkExpires := none
    magicLinkUsed := true }

/-- Success payload of the verify handler: the updated user record (the JSON
body) and the JWT set as the `auth_token` cookie. -/
structure VerifyPayload where
  user : User
  jwt : Jwt
deriving Repr, DecidableEq

/-- The second half of the verify handler, from the `findFirst` result on:
if no user was found, respond 400 "Invalid or expired verification link";
otherwise run `prisma.user.update({where: {id: user.id}, data: ...})`
(unconditional — its `where` names only the id) and respond with the updated
record and the freshly minted JWT. -/
def verifyUpdateStep (db : DB) (now : Nat) (secret : String)
    (fo : Option User) : DB × Result VerifyPayload :=
  match fo with
  | none => (db, .err .invalidOrExpiredToken)
  | some u => (updateById db u.id consume, .ok ⟨consume u, mintJwt secret now u⟩)

/-- Outcome of the verify handler. -/
structure VerifyOutcome where
  db : DB
  response : Result VerifyPayload
deriving Repr, DecidableEq

/-- Handler `GET /api/auth/verify?token=...`: the `!token` guard, then `findFirst`,
then the consuming update and JWT mint. -/
def verify (db : DB) (now : Nat) (secret : String) (token : Option String) :
    VerifyOutcome :=
  match token with
  | none => ⟨db, .err .invalidInput⟩
  | some t =>
    if t.isEmpty then ⟨db, .err .invalidInput⟩
    else
      let s := verifyUpdateStep db now secret (verifyFind db now t)
      ⟨s.1, s.2⟩

/-- The `where` clause of the reaper `updateMany`:
`magicLinkExpires: {lt: now}, magicLinkToken: {not: null}` (a `null` expiry
never satisfies `lt`). -/
def shouldReap (now : Nat) (u : User) : Bool :=
  (match u.magicLinkExpires with
   | some ex => decide (ex < now)
   | none => false) && u.magicLinkToken.isSome

/-- The `data` of the reaper `updateMany`: clear the token and expiry and
reset `used` to false. -/
def clearMagicLink (u : User) : User :=
  { u with
    magicLinkToken := none
    magicLinkExpires := none
    magicLinkUsed := false }

/-- Reaper `cleanupExpiredTokens`: `updateMany` over the whole table. -/
def cleanupExpiredTokens (db : DB) (now : Nat) : DB :=
  db.map (fun u => if shouldReap now u then clearMagicLink u else u)

/-- Handler `GET /api/me`: missing cookie, a JWT whose signature does not verify
(modelled as a secret mismatch), or an expired JWT all land in the 401
branches; otherwise the user is re-fetched by id and a missing user is also
401. -/
def me (db : DB) (now : Nat) (secret : String) (cookie : Option Jwt) :
    Result User :=
  match cookie with
  | none => .err .unauthenticated
  | some j =>
    if j.secret != secret || decide (j.expiresAt ≤ now) then
      .err .unauthenticated
    else
      match findUniqueById db j.userId with
      | none => .err .unauthenticated
      | some u => .ok u

/-! ### Helper lemmas -/

/-- The verify `where` clause, unpacked into propositional form. -/
theorem isActiveToken_iff (t : String) (now : Nat) (u : User) :
    isActiveToken t now u = true ↔
      u.magicLinkToken = some t ∧ u.magicLinkUsed = false ∧
        ∃ ex, u.magicLinkExpires = some ex ∧ now < ex := by
  unfold isActiveToken
  cases hex : u.magicLinkExpires with
  | none => simp [hex]
  | some ex => simp [hex, and_assoc]

/-- Query `findFirst` of the verify handler succeeds iff some row satisfies the
token/used/expiry predicate. -/
theorem verifyFind_isSome_iff (db : DB) (now : Nat) (t : String) :
    (verifyFind db now t).isSome = true ↔
      ∃ u ∈ db, u.magicLinkToken = some t ∧ u.magicLinkUsed = false ∧
        ∃ ex, u.magicLinkExpires = some ex ∧ now < ex := by
  unfold verifyFind
  rw [List.find?_isSome]
  constructor
  · rintro ⟨u, hu, hp⟩
    exact ⟨u, hu, (isActiveToken_iff t now u).1 hp⟩
  · rintro ⟨u, hu, hp⟩
    exact ⟨u, hu, (isActiveToken_iff t now u).2 hp⟩

/-- A demonstration row holding an unexpired, unused token `"tok"`. -/
def demoUser : User :=
  { id := 1
    email := "a@x.com"
    name := some "A"
    verified := false
    createdAt := 0
    magicLinkToken := some "tok"
    magicLinkExpires := some fifteenMinutes
    magicLinkUsed := false }

/-- A one-row demonstration table. -/
def demoDb : DB := [demoUser]

/-! ### C1: the verify acceptance condition -/

/-- C1: Verify accepts a presented (non-empty) token iff some user stores
that very token, with a used flag that is false, while the current time is
strictly before the stored expiry; when no such user exists (wrong token,
already used, or expired alike) it fails with the single unified
`invalidOrExpiredToken` error. -/
theorem verify_accepts_iff (db : DB) (now : Nat) (secret t : String)
    (ht : t.isEmpty = false) :
    ((verify db now secret (some t)).response.isOk = true ↔
      ∃ u ∈ db, u.magicLinkToken = some t ∧ u.magicLinkUsed = false ∧
        ∃ ex, u.magicLinkExpires = some ex ∧ now < ex) ∧
    ((¬ ∃ u ∈ db, u.magicLinkToken = some t ∧ u.magicLinkUsed = false ∧
        ∃ ex, u.magicLinkExpires = some ex ∧ now < ex) →
      (verify db now secret (some t)).response = .err .invalidOrExpiredToken) := by
  constructor
  · rw [← verifyFind_isSome_iff db now t]
    unfold verify verifyUpdateStep
    simp only [ht, Bool.false_eq_true, if_false]
    cases hf : verifyFind db now t <;> simp [hf, Result.isOk]
  · intro hno
    have hnone : verifyFind db now t = none := by
      cases hf : verifyFind db now t with
      | none => rfl
      | some u =>
        exact absurd ((verifyFind_isSome_iff db now t).1 (by simp [hf])) hno
    unfold verify verifyUpdateStep
    simp [ht, hnone]

/-- Witness for C1 on the demonstration table. -/
theorem verify_accepts_iff_witness :
    ((verify demoDb 0 "s" (some "tok")).response.isOk = true ↔
      ∃ u ∈ demoDb, u.magicLinkToken = some "tok" ∧ u.magicLinkUsed = false ∧
        ∃ ex, u.magicLinkExpires = some ex ∧ 0 < ex) ∧
    ((¬ ∃ u ∈ demoDb, u.magicLinkToken = some "tok" ∧
        u.magicLinkUsed = false ∧
        ∃ ex, u.magicLinkExpires = some ex ∧ 0 < ex) →
      (verify demoDb 0 "s" (some "tok")).response =
        .err .invalidOrExpiredToken) :=
  verify_accepts_iff demoDb 0 "s" "tok" rfl

/-! ### C2: effects of a successful verification -/

/-- C2: when Verify matches a user, it sets the `verified` flag of that
user, nulls the token and expiry, sets `used`, mints a 7-day JWT bound to
the id and email of the user, and returns the updated record and credential;
rows with other ids are untouched. -/
theorem verify_success_effects (db : DB) (now : Nat) (secret t : String)
    (u : User) (ht : t.isEmpty = false)
    (hfind : verifyFind db now t = some u) :
    (verify db now secret (some t)).response =
      .ok ⟨consume u, mintJwt secret now u⟩ ∧
    (consume u).verified = true ∧ (consume u).magicLinkToken = none ∧
    (consume u).magicLinkExpires = none ∧ (consume u).magicLinkUsed = true ∧
    (consume u).id = u.id ∧ (consume u).email = u.email ∧
    (mintJwt secret now u).userId = u.id ∧
    (mintJwt secret now u).email = u.email ∧
    (mintJwt secret now u).expiresAt = now + sevenDays ∧
    (mintJwt secret now u).secret = secret ∧
    (verify db now secret (some t)).db = updateById db u.id consume ∧
    (∀ v ∈ (verify db now secret (some t)).db,
      (v.id = u.id → v.verified = true ∧ v.magicLinkToken = none ∧
        v.magicLinkExpires = none ∧ v.magicLinkUsed = true) ∧
      (v.id ≠ u.id → v ∈ db)) := by
  have hout : verify db now secret (some t) =
      ⟨updateById db u.id consume, .ok ⟨consume u, mintJwt secret now u⟩⟩ := by
    unfold verify verifyUpdateStep
    simp [ht, hfind]
  rw [hout]
  refine ⟨rfl, rfl, rfl, rfl, rfl, rfl, rfl, rfl, rfl, rfl, rfl, rfl, ?_⟩
  intro v hv
  simp only [updateById, List.mem_map] at hv
  obtain ⟨w, hw, hvw⟩ := hv
  by_cases hid : w.id = u.id
  · have : v = consume w := by simpa [hid] using hvw.symm
    subst this
    constructor
    · intro _
      exact ⟨rfl, rfl, rfl, rfl⟩
    · intro hne
      exact absurd hid hne
  · have : v = w := by
      have : (w.id == u.id) = false := by
        simpa using hid
      simpa [this] using hvw.symm
    subst this
    constructor
    · intro h
      exact absurd h hid
    · intro _
      exact hw

/-- Witness for C2 on the demonstration table. -/
theorem verify_success_effects_witness :
    (verify demoDb 0 "s" (some "tok")).response =
      .ok ⟨consume demoUser, mintJwt "s" 0 demoUser⟩ :=
  (verify_success_effects demoDb 0 "s" "tok" demoUser rfl rfl).1

/-! ### C6: signup against a verified account mutates nothing -/

/-- A demonstration row for an already-verified account. -/
def demoVerifiedUser : User :=
  { id := 2
    email := "b@x.com"
    name := none
    verified := true
    createdAt := 0
    magicLinkToken := none
    magicLinkExpires := none
    magicLinkUsed := false }

/-- A one-row table holding only the verified account. -/
def demoDb2 : DB := [demoVerifiedUser]

/-- C6: a signup whose email belongs to an existing verified user fails with
`alreadyExists` (409), leaves the whole table unchanged, and dispatches no
notification. -/
theorem signup_verified_conflict (db : DB) (now : Nat) (ftok : String)
    (fid : Nat) (emailOk : Bool) (e : String) (name : Option String)
    (u : User) (hval : validEmail (some e) = true)
    (hfind : findUniqueByEmail db e = some u) (hver : u.verified = true) :
    signup db now ftok fid emailOk (some e) name =
      ⟨db, .err .alreadyExists, false⟩ := by
  unfold signup
  simp [hval, hfind, hver]

/-- Witness for C6 on the verified demonstration account. -/
theorem signup_verified_conflict_witness :
    signup demoDb2 0 "t2" 3 true (some "b@x.com") none =
      ⟨demoDb2, .err .alreadyExists, false⟩ :=
  signup_verified_conflict demoDb2 0 "t2" 3 true "b@x.com" none
    demoVerifiedUser rfl rfl rfl

/-! ### C7: the reaper sweep touches exactly the expired token holders -/

/-- The reaper `where` clause in propositional form: expiry strictly in the
past and a non-null stored token. -/
def expiredHolder (now : Nat) (u : User) : Prop :=
  (∃ ex, u.magicLinkExpires = some ex ∧ ex < now) ∧ u.magicLinkToken ≠ none

/-- The reaper `where` clause decides exactly `expiredHolder`. -/
theorem shouldReap_iff (now : Nat) (u : User) :
    shouldReap now u = true ↔ expiredHolder now u := by
  unfold shouldReap expiredHolder
  cases hex : u.magicLinkExpires <;> cases htok : u.magicLinkToken <;>
    simp [hex, htok]

/-- C7: each sweep maps every row with a past expiry and a non-null token to
its cleared form (token and expiry nulled, `used` reset to false), and maps
every other row — in particular every row with a null token — to itself. -/
theorem cleanup_exact (db : DB) (now : Nat) :
    List.Forall₂ (fun u v =>
      (expiredHolder now u → v = clearMagicLink u) ∧
      (¬ expiredHolder now u → v = u))
      db (cleanupExpiredTokens db now) := by
  unfold cleanupExpiredTokens
  induction db with
  | nil => exact .nil
  | cons hd tl ih =>
    refine List.Forall₂.cons ?_ ih
    by_cases h : expiredHolder now hd
    · have hr : shouldReap now hd = true := (shouldReap_iff now hd).2 h
      simp [hr, h]
    · have hr : shouldReap now hd = false := by
        rw [← Bool.not_eq_true, shouldReap_iff]
        exact h
      simp [hr, h]

/-- Witness for C7 on the demonstration table with the clock past expiry. -/
theorem cleanup_exact_witness :
    List.Forall₂ (fun u v =>
      (expiredHolder 9999999 u → v = clearMagicLink u) ∧
      (¬ expiredHolder 9999999 u → v = u))
      demoDb (cleanupExpiredTokens demoDb 9999999) :=
  cleanup_exact demoDb 9999999

/-! ### C9: the current-user endpoint auth checks -/

/-- C9: `GET /api/me` is 401 when the cookie is missing, the JWT signature
does not verify, or the JWT is expired; with a valid JWT it re-fetches the
user by id, is 401 when no such user exists, and returns the user
otherwise. -/
theorem me_auth_checks (db : DB) (now : Nat) (secret : String) :
    me db now secret none = .err .unauthenticated ∧
    (∀ j : Jwt, j.secret ≠ secret →
      me db now secret (some j) = .err .unauthenticated) ∧
    (∀ j : Jwt, j.expiresAt ≤ now →
      me db now secret (some j) = .err .unauthenticated) ∧
    (∀ j : Jwt, j.secret = secret → now < j.expiresAt →
      (findUniqueById db j.userId = none →
        me db now secret (some j) = .err .unauthenticated) ∧
      (∀ u, findUniqueById db j.userId = some u →
        me db now secret (some j) = .ok u)) := by
  refine ⟨rfl, ?_, ?_, ?_⟩
  · intro j hj
    have hb : (j.secret != secret) = true := by simpa using hj
    unfold me
    simp [hb]
  · intro j hj
    unfold me
    simp [hj]
  · intro j hsec hexp
    have h1 : (j.secret != secret) = false := by simpa using hsec
    have h2 : decide (j.expiresAt ≤ now) = false := by
      simpa using Nat.not_le.2 hexp
    constructor
    · intro hf
      unfold me
      simp [h1, h2, hf]
    · intro u hf
      unfold me
      simp [h1, h2, hf]

/-- Witness for C9: missing cookie on the demonstration table. -/
theorem me_auth_checks_witness :
    me demoDb 0 "s" none = .err .unauthenticated :=
  (me_auth_checks demoDb 0 "s").1

/-! ### C10: the email validity check is only "present and contains '@'" -/

/-- Signup responds `invalidInput` exactly when the email check fails. -/
theorem signup_invalidInput_iff (db : DB) (now : Nat) (ftok : String)
    (fid : Nat) (emailOk : Bool) (e : Option String) (name : Option String) :
    (signup db now ftok fid emailOk e name).response = .err .invalidInput ↔
      validEmail e = false := by
  unfold signup
  cases e with
  | none => simp [validEmail]
  | some s =>
    by_cases hv : validEmail (some s) = true
    · cases hf : findUniqueByEmail db s with
      | none => cases emailOk <;> simp [hf, hv]
      | some u => cases hu : u.verified <;> cases emailOk <;>
          simp [hf, hv, hu]
    · have hv' : validEmail (some s) = false := by simpa using hv
      simp [hv']

/-- Login responds `invalidInput` exactly when the email check fails. -/
theorem login_invalidInput_iff (db : DB) (now : Nat) (ftok : String)
    (emailOk : Bool) (e : Option String) :
    (login db now ftok emailOk e).response = .err .invalidInput ↔
      validEmail e = false := by
  unfold login
  cases e with
  | none => simp [validEmail]
  | some s =>
    by_cases hv : validEmail (some s) = true
    · cases hf : findUniqueByEmail db s with
      | none => simp [hf, hv]
      | some u => cases hu : u.verified <;> cases emailOk <;>
          simp [hf, hv, hu]
    · have hv' : validEmail (some s) = false := by simpa using hv
      simp [hv']

/-- Resend responds `invalidInput` exactly when the email check fails. -/
theorem resend_invalidInput_iff (db : DB) (now : Nat) (ftok : String)
    (emailOk : Bool) (e : Option String) :
    (resend db now ftok emailOk e).response = .err .invalidInput ↔
      validEmail e = false := by
  unfold resend
  cases e with
  | none => simp [validEmail]
  | some s =>
    by_cases hv : validEmail (some s) = true
    · cases hf : findUniqueByEmail db s with
      | none => simp [hf, hv]
      | some u => cases hu : u.verified <;> cases emailOk <;>
          simp [hf, hv, hu]
    · have hv' : validEmail (some s) = false := by simpa using hv
      simp [hv']

/-- C10: in all three issuance handlers the only email-validity check is
presence plus at least one `@`; any string containing `@` (for example `"@"`
or `"a@"`) passes and the handler proceeds past the `invalidInput` guard. -/
theorem email_check_is_at_sign (db : DB) (now : Nat) (ftok : String)
    (fid : Nat) (emailOk : Bool) (name : Option String) :
    (∀ e : Option String, validEmail e = true ↔
      ∃ s, e = some s ∧ s.data ≠ [] ∧ '@' ∈ s.data) ∧
    (∀ e, (signup db now ftok fid emailOk e name).response =
      .err .invalidInput ↔ validEmail e = false) ∧
    (∀ e, (login db now ftok emailOk e).response =
      .err .invalidInput ↔ validEmail e = false) ∧
    (∀ e, (resend db now ftok emailOk e).response =
      .err .invalidInput ↔ validEmail e = false) ∧
    validEmail (some "@") = true ∧ validEmail (some "a@") = true := by
  refine ⟨?_, fun e => signup_invalidInput_iff db now ftok fid emailOk e name,
    fun e => login_invalidInput_iff db now ftok emailOk e,
    fun e => resend_invalidInput_iff db now ftok emailOk e,
    by decide, by decide⟩
  intro e
  cases e with
  | none => simp [validEmail]
  | some s => simp [validEmail]

/-- Witness for C10: the bare string `"@"` passes the check. -/
theorem email_check_is_at_sign_witness :
    validEmail (some "@") = true :=
  (email_check_is_at_sign demoDb 0 "t" 9 true none).2.2.2.2.1

/-! ### Shared lemmas about the store primitives -/

/-- Membership in an email-keyed update: each result row either is the
rewrite of a row with the matched email, or is an untouched row with a
different email. -/
theorem mem_updateByEmail {db : DB} {e : String} {f : User → User} {v : User}
    (hv : v ∈ updateByEmail db e f) :
    (∃ w ∈ db, w.email = e ∧ v = f w) ∨ (v ∈ db ∧ v.email ≠ e) := by
  unfold updateByEmail at hv
  obtain ⟨w, hw, hvw⟩ := List.mem_map.1 hv
  by_cases he : w.email = e
  · exact Or.inl ⟨w, hw, he, by simpa [he] using hvw.symm⟩
  · have hbe : (w.email == e) = false := by simpa using he
    have hveq : v = w := by simpa [hbe] using hvw.symm
    subst hveq
    exact Or.inr ⟨hw, he⟩

/-- The rewrite of a matched row is in the result of an email-keyed
update. -/
theorem updated_mem_updateByEmail {db : DB} {e : String} {f : User → User}
    {u : User} (hu : u ∈ db) (he : u.email = e) :
    f u ∈ updateByEmail db e f := by
  unfold updateByEmail
  refine List.mem_map.2 ⟨u, hu, ?_⟩
  simp [he]

/-- A successful email lookup returns a member row with that email. -/
theorem findUniqueByEmail_some {db : DB} {e : String} {u : User}
    (h : findUniqueByEmail db e = some u) : u ∈ db ∧ u.email = e := by
  refine ⟨List.mem_of_find?_eq_some h, ?_⟩
  have := List.find?_some h
  simpa using this

/-- A failed email lookup means no row has that email. -/
theorem findUniqueByEmail_none {db : DB} {e : String}
    (h : findUniqueByEmail db e = none) : ∀ v ∈ db, v.email ≠ e := by
  intro v hv
  have := List.find?_eq_none.1 h v hv
  simpa using this

/-- When no row at all stores the token, Verify fails with the unified
`invalidOrExpiredToken` error. -/
theorem verify_fails_of_noHolder (db : DB) (now : Nat) (secret t : String)
    (ht : t.isEmpty = false) (h : ∀ v ∈ db, v.magicLinkToken ≠ some t) :
    (verify db now secret (some t)).response = .err .invalidOrExpiredToken := by
  have hnone : verifyFind db now t = none := by
    unfold verifyFind
    rw [List.find?_eq_none]
    intro v hv hp
    exact h v hv ((isActiveToken_iff t now v).1 hp).1
  unfold verify verifyUpdateStep
  simp [ht, hnone]

/-! ### C5: issuance overwrites the token triple and invalidates the old token -/

/-- Conclusion predicate for C5: after the issuance every row with the
issued email carries exactly the fresh token, the fresh expiry, and a
cleared used flag, and the stale token is rejected by Verify at every later
instant. -/
def overwroteToken (o : IssueOutcome) (e ftok : String) (xp : Nat)
    (t0 : String) : Prop :=
  (∀ v ∈ o.db, v.email = e → v.magicLinkToken = some ftok ∧
    v.magicLinkExpires = some xp ∧ v.magicLinkUsed = false) ∧
  ∀ now' secret, (verify o.db now' secret (some t0)).response =
    .err .invalidOrExpiredToken

/-- The row created by the signup handler when the email is new. -/
def freshUser (fid : Nat) (e : String) (name : Option String) (now : Nat)
    (ftok : String) : User :=
  { id := fid
    email := e
    name := name
    verified := false
    createdAt := now
    magicLinkToken := some ftok
    magicLinkExpires := some (now + fifteenMinutes)
    magicLinkUsed := false }

/-- Pointwise effect of the token-overwriting update of an issuance, for any
rewrite function that installs the fresh triple. -/
theorem issue_update_effects {db : DB} {e ftok : String} {xp : Nat}
    {f : User → User} {t0 : String}
    (hft : ∀ w, (f w).magicLinkToken = some ftok)
    (hfx : ∀ w, (f w).magicLinkExpires = some xp)
    (hfu : ∀ w, (f w).magicLinkUsed = false)
    (hne : ftok ≠ t0)
    (hold : ∀ v ∈ db, v.magicLinkToken = some t0 → v.email = e) :
    ∀ v ∈ updateByEmail db e f,
      (v.email = e → v.magicLinkToken = some ftok ∧
        v.magicLinkExpires = some xp ∧ v.magicLinkUsed = false) ∧
      v.magicLinkToken ≠ some t0 := by
  intro v hv
  rcases mem_updateByEmail hv with ⟨w, hw, hwe, hvfw⟩ | ⟨hvdb, hve⟩
  · subst hvfw
    refine ⟨fun _ => ⟨hft w, hfx w, hfu w⟩, ?_⟩
    rw [hft w]
    intro hc
    exact hne (Option.some.inj hc)
  · exact ⟨fun h => absurd h hve, fun hc => hve (hold v hvdb hc)⟩

/-- Pointwise effects imply the C5 conclusion predicate. -/
theorem overwroteToken_of_pointwise {o : IssueOutcome} {e ftok : String}
    {xp : Nat} {t0 : String} (ht0 : t0.isEmpty = false)
    (h : ∀ v ∈ o.db,
      (v.email = e → v.magicLinkToken = some ftok ∧
        v.magicLinkExpires = some xp ∧ v.magicLinkUsed = false) ∧
      v.magicLinkToken ≠ some t0) :
    overwroteToken o e ftok xp t0 := by
  refine ⟨fun v hv hve => (h v hv).1 hve, fun now' secret => ?_⟩
  exact verify_fails_of_noHolder o.db now' secret t0 ht0
    (fun v hv => (h v hv).2)

/-- C5: each of the three issuance handlers overwrites the token, expiry and
used fields of the row of the issued email in its single `update` call, with
fresh token and a `now + 15 min` expiry, so a previously issued (stale)
token — expired or not — fails Verify afterwards. -/
theorem issuance_overwrites_and_invalidates (db : DB) (now : Nat)
    (ftok t0 e : String) (fid : Nat) (emailOk : Bool) (name : Option String)
    (hval : validEmail (some e) = true)
    (hne : ftok ≠ t0) (ht0 : t0.isEmpty = false)
    (hold : ∀ v ∈ db, v.magicLinkToken = some t0 → v.email = e) :
    ((∀ u, findUniqueByEmail db e = some u → u.verified = false) →
      overwroteToken (signup db now ftok fid emailOk (some e) name) e ftok
        (now + fifteenMinutes) t0) ∧
    (∀ u, findUniqueByEmail db e = some u → u.verified = true →
      overwroteToken (login db now ftok emailOk (some e)) e ftok
        (now + fifteenMinutes) t0) ∧
    (∀ u, findUniqueByEmail db e = some u → u.verified = false →
      overwroteToken (resend db now ftok emailOk (some e)) e ftok
        (now + fifteenMinutes) t0) := by
  refine ⟨?_, ?_, ?_⟩
  · intro hunv
    cases hf : findUniqueByEmail db e with
    | some u =>
      have hu : u.verified = false := hunv u hf
      have hdb : (signup db now ftok fid emailOk (some e) name).db =
          updateByEmail db e (fun v =>
            { v with
              name := jsOr name v.name
              magicLinkToken := some ftok
              magicLinkExpires := some (now + fifteenMinutes)
              magicLinkUsed := false }) := by
        unfold signup
        cases emailOk <;> simp [hval, hf, hu]
      refine overwroteToken_of_pointwise ht0 ?_
      rw [hdb]
      exact issue_update_effects (fun w => rfl) (fun w => rfl)
        (fun w => rfl) hne hold
    | none =>
      have hnoe : ∀ v ∈ db, v.email ≠ e := findUniqueByEmail_none hf
      have hdb : (signup db now ftok fid emailOk (some e) name).db =
          db ++ [freshUser fid e name now ftok] := by
        unfold signup
        cases emailOk <;> simp [hval, hf, freshUser]
      refine overwroteToken_of_pointwise ht0 ?_
      rw [hdb]
      intro v hv
      rcases List.mem_append.1 hv with hvdb | hvnew
      · refine ⟨fun h => absurd h (hnoe v hvdb), ?_⟩
        intro hc
        exact hnoe v hvdb (hold v hvdb hc)
      · have hveq : v = freshUser fid e name now ftok := by
          simpa using hvnew
        subst hveq
        refine ⟨fun _ => ⟨rfl, rfl, rfl⟩, ?_⟩
        intro hc
        exact hne (Option.some.inj hc)
  · intro u hf hu
    have hdb : (login db now ftok emailOk (some e)).db =
        updateByEmail db e (fun v =>
          { v with
            magicLinkToken := some ftok
            magicLinkExpires := some (now + fifteenMinutes)
            magicLinkUsed := false }) := by
      unfold login
      cases emailOk <;> simp [hval, hf, hu]
    refine overwroteToken_of_pointwise ht0 ?_
    rw [hdb]
    exact issue_update_effects (fun w => rfl) (fun w => rfl)
      (fun w => rfl) hne hold
  · intro u hf hu
    have hdb : (resend db now ftok emailOk (some e)).db =
        updateByEmail db e (fun v =>
          { v with
            magicLinkToken := some ftok
            magicLinkExpires := some (now + fifteenMinutes)
            magicLinkUsed := false }) := by
      unfold resend
      cases emailOk <;> simp [hval, hf, hu]
    refine overwroteToken_of_pointwise ht0 ?_
    rw [hdb]
    exact issue_update_effects (fun w => rfl) (fun w => rfl)
      (fun w => rfl) hne hold

/-- The verified demonstration user still holding a stale token `"old"`. -/
def demoStaleUser : User :=
  { demoVerifiedUser with
    magicLinkToken := some "old"
    magicLinkExpires := some 100 }

/-- Witness for C5: a login re-issuance for the verified demonstration user
makes its old token `"old"` fail Verify. -/
theorem issuance_overwrites_and_invalidates_witness :
    overwroteToken (login [demoStaleUser] 0 "new" true (some "b@x.com"))
      "b@x.com" "new" (0 + fifteenMinutes) "old" :=
  (issuance_overwrites_and_invalidates [demoStaleUser]
      0 "new" "old" "b@x.com" 9 true none (by decide) (by decide) (by decide)
      (by decide)).2.1 demoStaleUser rfl rfl

/-! ### C8: the token is persisted before dispatch; dispatch failure fails
the operation -/

/-- Conclusion predicate for C8: the handler attempted the dispatch, the
caller got the 500 error rather than a success, and the fresh token is
nevertheless already persisted for the issued email — the write preceded
the dispatch attempt. -/
def failedDispatchOutcome (o : IssueOutcome) (e ftok : String) : Prop :=
  o.response = .err .serverError ∧ o.dispatched = true ∧
    ∃ v ∈ o.db, v.email = e ∧ v.magicLinkToken = some ftok

/-- C8: in each of the three issuance handlers the store update runs before
`sendMagicLinkEmail`; when the dispatch fails (`emailOk = false`) the
operation reports the 500 error, yet the fresh token is already in the
store. -/
theorem dispatch_failure_fails_operation (db : DB) (now : Nat)
    (ftok : String) (fid : Nat) (e : String) (name : Option String)
    (hval : validEmail (some e) = true) :
    ((∀ u, findUniqueByEmail db e = some u → u.verified = false) →
      failedDispatchOutcome (signup db now ftok fid false (some e) name)
        e ftok) ∧
    (∀ u, findUniqueByEmail db e = some u → u.verified = true →
      failedDispatchOutcome (login db now ftok false (some e)) e ftok) ∧
    (∀ u, findUniqueByEmail db e = some u → u.verified = false →
      failedDispatchOutcome (resend db now ftok false (some e)) e ftok) := by
  refine ⟨?_, ?_, ?_⟩
  · intro hunv
    cases hf : findUniqueByEmail db e with
    | some u =>
      have hu : u.verified = false := hunv u hf
      obtain ⟨hmem, hemail⟩ := findUniqueByEmail_some hf
      have hout : signup db now ftok fid false (some e) name =
          ⟨updateByEmail db e (fun v =>
            { v with
              name := jsOr name v.name
              magicLinkToken := some ftok
              magicLinkExpires := some (now + fifteenMinutes)
              magicLinkUsed := false }),
            .err .serverError, true⟩ := by
        unfold signup
        simp [hval, hf, hu]
      rw [hout]
      refine ⟨rfl, rfl, ?_⟩
      exact ⟨_, updated_mem_updateByEmail hmem hemail, hemail, rfl⟩
    | none =>
      have hout : signup db now ftok fid false (some e) name =
          ⟨db ++ [freshUser fid e name now ftok], .err .serverError, true⟩ := by
        unfold signup
        simp [hval, hf, freshUser]
      rw [hout]
      exact ⟨rfl, rfl, freshUser fid e name now ftok, by simp, rfl, rfl⟩
  · intro u hf hu
    obtain ⟨hmem, hemail⟩ := findUniqueByEmail_some hf
    have hout : login db now ftok false (some e) =
        ⟨updateByEmail db e (fun v =>
          { v with
            magicLinkToken := some ftok
            magicLinkExpires := some (now + fifteenMinutes)
            magicLinkUsed := false }),
          .err .serverError, true⟩ := by
      unfold login
      simp [hval, hf, hu]
    rw [hout]
    refine ⟨rfl, rfl, ?_⟩
    exact ⟨_, updated_mem_updateByEmail hmem hemail, hemail, rfl⟩
  · intro u hf hu
    obtain ⟨hmem, hemail⟩ := findUniqueByEmail_some hf
    have hout : resend db now ftok false (some e) =
        ⟨updateByEmail db e (fun v =>
          { v with
            magicLinkToken := some ftok
            magicLinkExpires := some (now + fifteenMinutes)
            magicLinkUsed := false }),
          .err .serverError, true⟩ := by
      unfold resend
      simp [hval, hf, hu]
    rw [hout]
    refine ⟨rfl, rfl, ?_⟩
    exact ⟨_, updated_mem_updateByEmail hmem hemail, hemail, rfl⟩

/-- Witness for C8: a signup for the unverified demonstration user with a
failing mail transport returns the 500 error with the token persisted. -/
theorem dispatch_failure_fails_operation_witness :
    failedDispatchOutcome (signup demoDb 0 "t9" 9 false (some "a@x.com")
      (some "A")) "a@x.com" "t9" :=
  (dispatch_failure_fails_operation demoDb 0 "t9" 9 "a@x.com" (some "A")
      (by decide)).1
    (by decide)

/-! ### C3: a consumed token is never accepted again -/

/-- The state-changing operations of the service, each carrying its own
clock reading and, for the issuances, the token the generator produced. -/
inductive Op where
  | opSignup (now : Nat) (freshToken : String) (freshId : Nat)
      (emailOk : Bool) (email : Option String) (name : Option String)
  | opLogin (now : Nat) (freshToken : String) (emailOk : Bool)
      (email : Option String)
  | opResend (now : Nat) (freshToken : String) (emailOk : Bool)
      (email : Option String)
  | opVerify (now : Nat) (secret : String) (token : Option String)
  | opReap (now : Nat)
deriving Repr, DecidableEq

/-- Effect of one operation on the store. -/
def Op.apply (db : DB) : Op → DB
  | .opSignup now ft fi ok e nm => (signup db now ft fi ok e nm).db
  | .opLogin now ft ok e => (login db now ft ok e).db
  | .opResend now ft ok e => (resend db now ft ok e).db
  | .opVerify now secret tk => (verify db now secret tk).db
  | .opReap now => cleanupExpiredTokens db now

/-- The token an issuance writes, if the operation is an issuance. -/
def Op.freshOf : Op → Option String
  | .opSignup _ ft _ _ _ _ => some ft
  | .opLogin _ ft _ _ => some ft
  | .opResend _ ft _ _ => some ft
  | .opVerify _ _ _ => none
  | .opReap _ => none

/-- Effect of a sequence of operations on the store. -/
def applyOps (db : DB) : List Op → DB
  | [] => db
  | op :: rest => applyOps (Op.apply db op) rest

/-- No row of the store holds the token `t`. -/
def noHolder (t : String) (db : DB) : Prop :=
  ∀ u ∈ db, u.magicLinkToken ≠ some t

/-- An email-keyed update whose rewrite never installs `t` preserves
`noHolder t`. -/
theorem noHolder_updateByEmail {t : String} {db : DB} {e : String}
    {f : User → User} (hf : ∀ w, (f w).magicLinkToken ≠ some t)
    (h : noHolder t db) : noHolder t (updateByEmail db e f) := by
  intro v hv
  rcases mem_updateByEmail hv with ⟨w, _, _, hvfw⟩ | ⟨hvdb, _⟩
  · subst hvfw
    exact hf w
  · exact h v hvdb

/-- Appending a row whose token is not `t` preserves `noHolder t`. -/
theorem noHolder_append {t : String} {db : DB} {u : User}
    (hu : u.magicLinkToken ≠ some t) (h : noHolder t db) :
    noHolder t (db ++ [u]) := by
  intro v hv
  rcases List.mem_append.1 hv with hvdb | hvnew
  · exact h v hvdb
  · have : v = u := by simpa using hvnew
    subst this
    exact hu

/-- Signup with a fresh token other than `t` preserves `noHolder t`. -/
theorem noHolder_signup {t : String} (db : DB) (now : Nat) (ft : String)
    (fi : Nat) (ok : Bool) (e nm : Option String) (hne : ft ≠ t)
    (h : noHolder t db) : noHolder t (signup db now ft fi ok e nm).db := by
  have hs : some ft ≠ some t := fun hc => hne (Option.some.inj hc)
  unfold signup
  cases e with
  | none => exact h
  | some s =>
    by_cases hv : validEmail (some s) = true
    · cases hf : findUniqueByEmail db s with
      | some u =>
        cases hu : u.verified with
        | true =>
          simp [hv, hf, hu]
          exact h
        | false =>
          cases ok with
          | true =>
            simp [hv, hf, hu]
            exact noHolder_updateByEmail (fun w => hs) h
          | false =>
            simp [hv, hf, hu]
            exact noHolder_updateByEmail (fun w => hs) h
      | none =>
        cases ok with
        | true =>
          simp [hv, hf]
          exact noHolder_append hs h
        | false =>
          simp [hv, hf]
          exact noHolder_append hs h
    · have hv' : validEmail (some s) = false := by simpa using hv
      simp [hv']
      exact h

/-- Login with a fresh token other than `t` preserves `noHolder t`. -/
theorem noHolder_login {t : String} (db : DB) (now : Nat) (ft : String)
    (ok : Bool) (e : Option String) (hne : ft ≠ t)
    (h : noHolder t db) : noHolder t (login db now ft ok e).db := by
  have hs : some ft ≠ some t := fun hc => hne (Option.some.inj hc)
  unfold login
  cases e with
  | none => exact h
  | some s =>
    by_cases hv : validEmail (some s) = true
    · cases hf : findUniqueByEmail db s with
      | some u =>
        cases hu : u.verified with
        | false =>
          simp [hv, hf, hu]
          exact h
        | true =>
          cases ok with
          | true =>
            simp [hv, hf, hu]
            exact noHolder_updateByEmail (fun w => hs) h
          | false =>
            simp [hv, hf, hu]
            exact noHolder_updateByEmail (fun w => hs) h
      | none =>
        simp [hv, hf]
        exact h
    · have hv' : validEmail (some s) = false := by simpa using hv
      simp [hv']
      exact h

/-- Resend with a fresh token other than `t` preserves `noHolder t`. -/
theorem noHolder_resend {t : String} (db : DB) (now : Nat) (ft : String)
    (ok : Bool) (e : Option String) (hne : ft ≠ t)
    (h : noHolder t db) : noHolder t (resend db now ft ok e).db := by
  have hs : some ft ≠ some t := fun hc => hne (Option.some.inj hc)
  unfold resend
  cases e with
  | none => exact h
  | some s =>
    by_cases hv : validEmail (some s) = true
    · cases hf : findUniqueByEmail db s with
      | some u =>
        cases hu : u.verified with
        | true =>
          simp [hv, hf, hu]
          exact h
        | false =>
          cases ok with
          | true =>
            simp [hv, hf, hu]
            exact noHolder_updateByEmail (fun w => hs) h
          | false =>
            simp [hv, hf, hu]
            exact noHolder_updateByEmail (fun w => hs) h
      | none =>
        simp [hv, hf]
        exact h
    · have hv' : validEmail (some s) = false := by simpa using hv
      simp [hv']
      exact h

/-- The consuming update preserves `noHolder t` for every `t`: it only
nulls token fields. -/
theorem noHolder_updateById_consume {t : String} {db : DB} {uid : Nat}
    (h : noHolder t db) : noHolder t (updateById db uid consume) := by
  intro v hv
  unfold updateById at hv
  obtain ⟨w, hw, hvw⟩ := List.mem_map.1 hv
  cases hb : w.id == uid with
  | true =>
    have : v = consume w := by simpa [hb] using hvw.symm
    subst this
    simp [consume]
  | false =>
    have : v = w := by simpa [hb] using hvw.symm
    subst this
    exact h v hw

/-- Verify preserves `noHolder t` for every `t`: it either leaves the store
alone or nulls a token field. -/
theorem noHolder_verify {t : String} (db : DB) (now : Nat) (secret : String)
    (tk : Option String) (h : noHolder t db) :
    noHolder t (verify db now secret tk).db := by
  unfold verify verifyUpdateStep
  cases tk with
  | none => exact h
  | some s =>
    cases hemp : s.isEmpty with
    | true =>
      simp only [hemp, if_true]
      exact h
    | false =>
      simp only [hemp, Bool.false_eq_true, if_false]
      cases hf : verifyFind db now s with
      | none => simpa using h
      | some u =>
        simp only
        exact noHolder_updateById_consume h

/-- The reaper sweep preserves `noHolder t` for every `t`: it only nulls
token fields. -/
theorem noHolder_cleanup {t : String} (db : DB) (now : Nat)
    (h : noHolder t db) : noHolder t (cleanupExpiredTokens db now) := by
  intro v hv
  unfold cleanupExpiredTokens at hv
  obtain ⟨w, hw, hvw⟩ := List.mem_map.1 hv
  cases hb : shouldReap now w with
  | true =>
    have : v = clearMagicLink w := by simpa [hb] using hvw.symm
    subst this
    simp [clearMagicLink]
  | false =>
    have : v = w := by simpa [hb] using hvw.symm
    subst this
    exact h v hw

/-- Any operation whose fresh token (if any) differs from `t` preserves
`noHolder t`. -/
theorem noHolder_apply {t : String} (db : DB) (op : Op)
    (hop : op.freshOf ≠ some t) (h : noHolder t db) :
    noHolder t (op.apply db) := by
  cases op with
  | opSignup now ft fi ok e nm =>
    exact noHolder_signup db now ft fi ok e nm
      (fun hc => hop (by simp [Op.freshOf, hc])) h
  | opLogin now ft ok e =>
    exact noHolder_login db now ft ok e
      (fun hc => hop (by simp [Op.freshOf, hc])) h
  | opResend now ft ok e =>
    exact noHolder_resend db now ft ok e
      (fun hc => hop (by simp [Op.freshOf, hc])) h
  | opVerify now secret tk => exact noHolder_verify db now secret tk h
  | opReap now => exact noHolder_cleanup db now h

/-- A whole trace of operations, none issuing `t`, preserves `noHolder t`. -/
theorem noHolder_applyOps {t : String} (ops : List Op) (db : DB)
    (h : noHolder t db) (hops : ∀ op ∈ ops, op.freshOf ≠ some t) :
    noHolder t (applyOps db ops) := by
  induction ops generalizing db with
  | nil => exact h
  | cons op rest ih =>
    exact ih (Op.apply db op)
      (noHolder_apply db op (hops op (List.mem_cons_self op rest)) h)
      (fun o ho => hops o (List.mem_cons_of_mem _ ho))

/-- C3: once a token is consumed by a successful Verify (with token
uniqueness across rows, as the generator provides), no later Verify of the
same token string succeeds — whatever sequence of verifies, reaper sweeps
and issuances runs in between, as long as no issuance independently
generates that same string again; the later call fails with
`invalidOrExpiredToken`. -/
theorem consumed_token_never_reaccepted (db : DB) (now0 : Nat)
    (secret0 t : String) (p : VerifyPayload)
    (ht : t.isEmpty = false)
    (hok : (verify db now0 secret0 (some t)).response = .ok p)
    (huniq : ∀ v ∈ db, v.magicLinkToken = some t →
      ∀ w ∈ db, w.magicLinkToken = some t → v.id = w.id)
    (ops : List Op) (hops : ∀ op ∈ ops, op.freshOf ≠ some t)
    (now1 : Nat) (secret1 : String) :
    (verify (applyOps (verify db now0 secret0 (some t)).db ops) now1 secret1
      (some t)).response = .err .invalidOrExpiredToken := by
  obtain ⟨u, hf⟩ : ∃ u, verifyFind db now0 t = some u := by
    cases hf : verifyFind db now0 t with
    | some u => exact ⟨u, rfl⟩
    | none =>
      rw [show (verify db now0 secret0 (some t)).response =
          .err .invalidOrExpiredToken by
        unfold verify verifyUpdateStep
        simp [ht, hf]] at hok
      cases hok
  have hu : u ∈ db ∧ isActiveToken t now0 u = true :=
    ⟨List.mem_of_find?_eq_some hf, List.find?_some hf⟩
  have hutok : u.magicLinkToken = some t :=
    ((isActiveToken_iff t now0 u).1 hu.2).1
  have hdb : (verify db now0 secret0 (some t)).db =
      updateById db u.id consume := by
    unfold verify verifyUpdateStep
    simp [ht, hf]
  have hnh : noHolder t (verify db now0 secret0 (some t)).db := by
    rw [hdb]
    intro v hv
    unfold updateById at hv
    obtain ⟨w, hw, hvw⟩ := List.mem_map.1 hv
    cases hb : w.id == u.id with
    | true =>
      have : v = consume w := by simpa [hb] using hvw.symm
      subst this
      simp [consume]
    | false =>
      have hvweq : v = w := by simpa [hb] using hvw.symm
      subst hvweq
      intro hc
      have : v.id = u.id := huniq v hw hc u hu.1 hutok
      simp [this] at hb
  exact verify_fails_of_noHolder _ now1 secret1 t ht
    (noHolder_applyOps ops _ hnh hops)

/-- Witness for C3: after consuming `"tok"` on the demonstration table, a
reaper sweep and a fresh login issuance later, `"tok"` is still refused. -/
theorem consumed_token_never_reaccepted_witness :
    (verify (applyOps (verify demoDb 0 "s" (some "tok")).db
        [Op.opReap 1000000000, Op.opLogin 5 "other" true (some "a@x.com")])
      7 "s2" (some "tok")).response = .err .invalidOrExpiredToken :=
  consumed_token_never_reaccepted demoDb 0 "s" "tok"
    ⟨consume demoUser, mintJwt "s" 0 demoUser⟩ rfl rfl (by decide)
    [Op.opReap 1000000000, Op.opLogin 5 "other" true (some "a@x.com")]
    (by decide) 7 "s2"

/-! ### C4: the consume-on-verify sequence is not atomic -/

/-- Two concurrent verify requests for the same token, interleaved so that
both `findFirst` reads run before either consuming update — the schedule
the handler admits because its `findFirst` and its `update({where: {id}})`
are two separate store calls and the `where` of the update repeats none of the
token/used/expiry conditions.  Both requests run the very same two steps
the sequential handler runs (`verifyFind`, then `verifyUpdateStep`); only
the second update sees the writes of the first. -/
def racedVerify (db : DB) (now : Nat) (secret t : String) :
    Result VerifyPayload × Result VerifyPayload :=
  let fA := verifyFind db now t
  let fB := verifyFind db now t
  let sA := verifyUpdateStep db now secret fA
  let sB := verifyUpdateStep sA.1 now secret fB
  (sA.2, sB.2)

/-- C4 fails on the code: under the find/find/update/update interleaving on
a table whose one user holds the valid token `"tok"`, both concurrent
callers observe a success response — not exactly one — while a sequential
second call after a completed first one is refused.  The consuming update
is a fetch-then-check-then-update sequence, not one atomic conditional
update. -/
theorem raced_verify_both_succeed :
    (racedVerify demoDb 0 "s" "tok").1 =
      .ok ⟨consume demoUser, mintJwt "s" 0 demoUser⟩ ∧
    (racedVerify demoDb 0 "s" "tok").2 =
      .ok ⟨consume demoUser, mintJwt "s" 0 demoUser⟩ ∧
    (racedVerify demoDb 0 "s" "tok").1.isOk = true ∧
    (racedVerify demoDb 0 "s" "tok").2.isOk = true ∧
    (verify (verify demoDb 0 "s" (some "tok")).db 0 "s"
      (some "tok")).response = .err .invalidOrExpiredToken := by
  refine ⟨rfl, rfl, rfl, rfl, rfl⟩

end MagicLink
